import Mathlib

/-!
Verification development for the Smart Bike Tracker firmware
(`src/mcu/bike_tracker_esp32`).

The C++ sources are shallowly embedded into Lean:
* Arduino `String` values become `List Char`;
* machine integers become `Nat`/`Int` with explicit `% 2 ^ 32` where a
  32-bit assignment truncates (on the ESP32 target, `unsigned long` and
  `long` are 32 bits wide);
* `float` storage of coordinates and speed is modelled by exact rationals
  (the claims examined here only test exact equality with zero and
  slot-level data flow, which IEEE storage round-trips preserve);
* the key-value `Preferences` store is modelled per namespace as a record
  of total functions from slot index to stored value, with the documented
  per-type defaults (`getFloat(_, 0)`, `getULong(_, 0)`, `getUChar(_, 0)`);
  slot keys such as `lat_<i>` are in bijection with `(field, i)`;
* the serial AT transport is modelled by an oracle record giving the
  outcome of each successive transaction, and the serialized JSON output
  of the history page renderer is modelled structurally.
-/

namespace BikeTracker

/-! ## Arduino string primitives

`atol` models `String::toInt` (C `atol`): skip leading whitespace, an
optional sign, then a leading run of decimal digits; `0` when no digits.
`listSubstring` models `String::substring(from, to)`.  `trimChars` models
`String::trim` (strip leading/trailing `isspace` characters). -/

def digitVal (c : Char) : Nat := c.toNat - 48

/-- Decimal digit test (C `isdigit`): code points 48-57. -/
def isDigitChar (c : Char) : Bool :=
  48 ≤ c.toNat && c.toNat ≤ 57

/-- Value of the leading run of decimal digits, accumulator style
(`atol` main loop). Stops at the first non-digit. -/
def natOfDigitRun : List Char → Nat → Nat
  | [], acc => acc
  | c :: r, acc => if isDigitChar c then natOfDigitRun r (acc * 10 + digitVal c) else acc

/-- C `isspace` characters. -/
def isSpaceChar (c : Char) : Bool :=
  c == ' ' || c == '\t' || c == '\n' || c == '\r' || c == '\x0b' || c == '\x0c'

/-- Model of Arduino `String::toInt` / C `atol` (32-bit overflow is not
modelled; every call site in the embedded code parses at most 4 digits). -/
def atol (l : List Char) : Int :=
  match l.dropWhile isSpaceChar with
  | [] => 0
  | c :: r =>
    if c = '-' then -(natOfDigitRun r 0 : Int)
    else if c = '+' then (natOfDigitRun r 0 : Int)
    else (natOfDigitRun (c :: r) 0 : Int)

/-- Model of `String::substring(a, b)`: characters at positions `[a, b)`. -/
def listSubstring (l : List Char) (a b : Nat) : List Char :=
  (l.drop a).take (b - a)

/-- Model of `String::trim`. -/
def trimChars (l : List Char) : List Char :=
  ((l.dropWhile isSpaceChar).reverse.dropWhile isSpaceChar).reverse

/-! ## GPS datetime normalizer (`parseGPSDateTimeToUnixMillis`,
`gps_handler.cpp` lines 19-76). -/

/-- Gregorian leap-year rule, exactly as written in the source
(`(y % 4 == 0 && y % 100 != 0) || (y % 400 == 0)`). -/
def isLeapYear (y : Nat) : Bool :=
  (y % 4 == 0 && y % 100 != 0) || (y % 400 == 0)

/-- The `daysInMonth` table, with February adjusted for leap years. -/
def daysInMonthTable (year : Nat) : List Nat :=
  [31, if isLeapYear year then 29 else 28, 31, 30, 31, 30, 31, 31, 30, 31, 30, 31]

/-- The year loop `for (y = 2024; y < year; y++)` accumulating
`366 * 86400` or `365 * 86400` seconds per elapsed year. -/
def yearSeconds (year : Nat) : Nat :=
  ((List.range (year - 2024)).map
    (fun k => (if isLeapYear (2024 + k) then 366 else 365) * 86400)).sum

/-- The month loop `for (m = 1; m < month; m++)` summing
`daysInMonth[m - 1]`. -/
def daysBeforeMonth (year month : Nat) : Nat :=
  ((List.range (month - 1)).map (fun k => (daysInMonthTable year).getD k 0)).sum

/-- The fixed fallback constant `1735689600000ULL` (the "Dec 2024
baseline"). -/
def gpsBaselineMillis : Nat := 1735689600000

/-- Model of `parseGPSDateTimeToUnixMillis`.  Field extraction uses
`substring(a, b).toInt`; validation and the seconds computation follow the
source line by line.  Arithmetic is exact: all intermediate values fit in
`uint64_t`, so `Nat` is faithful. -/
def parseGPSDateTimeToUnixMillis (datetime : List Char) : Nat :=
  if datetime.length < 14 then gpsBaselineMillis
  else
    let year := atol (listSubstring datetime 0 4)
    let month := atol (listSubstring datetime 4 6)
    let day := atol (listSubstring datetime 6 8)
    let hour := atol (listSubstring datetime 8 10)
    let minute := atol (listSubstring datetime 10 12)
    let second := atol (listSubstring datetime 12 14)
    if year < 2020 ∨ year > 2100 ∨ month < 1 ∨ month > 12 ∨
       day < 1 ∨ day > 31 ∨ hour > 23 ∨ minute > 59 ∨ second > 59 then
      gpsBaselineMillis
    else
      let y := year.toNat
      let secondsSince2024 :=
        yearSeconds y +
        (daysBeforeMonth y month.toNat + (day.toNat - 1)) * 86400 +
        hour.toNat * 3600 + minute.toNat * 60 + second.toNat
      (1704067200 + secondsSince2024) * 1000

/-! ## Spec-side views of a datetime string -/

/-- Numeric value of a digit string (most significant digit first);
spec-side companion of `natOfDigitRun`. -/
def digitsToNat : List Char → Nat
  | [] => 0
  | c :: r => digitVal c * 10 ^ r.length + digitsToNat r

/-- Year field of a 14-character datetime string, read as a number. -/
def dtYear (s : List Char) : Nat := digitsToNat (listSubstring s 0 4)

/-- Month field. -/
def dtMonth (s : List Char) : Nat := digitsToNat (listSubstring s 4 6)

/-- Day field. -/
def dtDay (s : List Char) : Nat := digitsToNat (listSubstring s 6 8)

/-- Hour field. -/
def dtHour (s : List Char) : Nat := digitsToNat (listSubstring s 8 10)

/-- Minute field. -/
def dtMinute (s : List Char) : Nat := digitsToNat (listSubstring s 10 12)

/-- Second field. -/
def dtSecond (s : List Char) : Nat := digitsToNat (listSubstring s 12 14)

/-- A well-formed 14-character datetime string: all digits, year in
[2020, 2100], and calendar-valid month/day/time fields (the day respects
the actual length of its month, February included). -/
def ValidDT (s : List Char) : Prop :=
  s.length = 14 ∧ s.all isDigitChar = true ∧
  2020 ≤ dtYear s ∧ dtYear s ≤ 2100 ∧
  1 ≤ dtMonth s ∧ dtMonth s ≤ 12 ∧
  1 ≤ dtDay s ∧ dtDay s ≤ (daysInMonthTable (dtYear s)).getD (dtMonth s - 1) 0 ∧
  dtHour s ≤ 23 ∧ dtMinute s ≤ 59 ∧ dtSecond s ≤ 59

instance (s : List Char) : Decidable (ValidDT s) := by
  unfold ValidDT; infer_instance

/-- Strict lexicographic order on character lists (character code order),
the order the spec compares datetime strings by. -/
def charListLt : List Char → List Char → Bool
  | [], [] => false
  | [], _ :: _ => true
  | _ :: _, [] => false
  | a :: as, b :: bs => a < b || (a == b && charListLt as bs)

/-! ## GNSS response parsing (`parseGNSSData`, `gps_handler.cpp`
lines 168-219). -/

/-- Does `pat` occur at the head of `l`?  Model of the prefix test inside
`String::indexOf`. -/
def listStartsWith : List Char → List Char → Bool
  | [], _ => true
  | _ :: _, [] => false
  | p :: ps, c :: cs => p == c && listStartsWith ps cs

/-- First occurrence position of `pat` in `l`, if any. -/
def firstOccur (l pat : List Char) : Option Nat :=
  match l with
  | [] => if pat.isEmpty then some 0 else none
  | _ :: t =>
    if listStartsWith pat l then some 0
    else (firstOccur t pat).map (· + 1)

/-- Model of Arduino `String::indexOf`: position of the first occurrence,
`-1` when absent. -/
def cppIndexOf (l pat : List Char) : Int :=
  match firstOccur l pat with
  | some n => n
  | none => -1

/-- The `GPSData` structure (`gps_handler.h`).  `timestamp` is declared
`unsigned long`, which is 32 bits wide on the ESP32 target; the claims
examined here never depend on its width at this point, so it is carried
as a plain `Nat`. -/
structure GPSData where
  latitude : List Char
  longitude : List Char
  datetime : List Char
  altitude : List Char
  speed : List Char
  course : List Char
  valid : Bool
  timestamp : Nat
deriving Repr, DecidableEq

/-- The literal `"0.000000"` compared against by the validity check. -/
def zeroCoordStr : List Char := "0.000000".data

/-- The literal pattern `"+CGNSINF: 1,1"` whose presence signals
run = 1, fix = 1. -/
def cgnsinfFixPat : List Char := "+CGNSINF: 1,1".data

/-- The CSV field splitter of `parseGNSSData`: the loop walks every
position up to and including the end of the string and closes a field at
each `,`, `\n`, `\r`, and at the end, so it splits on those delimiters
keeping empty segments, with one final segment at the end of the input. -/
def splitFields : List Char → List (List Char)
  | [] => [[]]
  | c :: rest =>
    if c = ',' ∨ c = '\n' ∨ c = '\r' then [] :: splitFields rest
    else
      match splitFields rest with
      | f :: fs => (c :: f) :: fs
      | [] => [[c]]

/-- Field `k` of the response payload: the `fields[22]` array holds the
first 22 segments (each trimmed) and defaults to the empty string.  The
code only ever reads fields 2-7, all below the 22 cap. -/
def gnssField (dataStr : List Char) (k : Nat) : List Char :=
  (((splitFields dataStr).map trimChars).take 22).getD k []

/-- Model of `parseGNSSData(gpsData, data)`: returns the C++ `bool`
result together with the updated `data` out-parameter. -/
def parseGNSSData (gpsData : List Char) (data : GPSData) : Bool × GPSData :=
  if cppIndexOf gpsData cgnsinfFixPat = -1 then (false, data)
  else
    let startIndex := cppIndexOf gpsData [':'] + 1
    if startIndex < 1 then (false, data)
    else
      let dataStr := trimChars (gpsData.drop startIndex.toNat)
      let d1 : GPSData :=
        { data with
          datetime := gnssField dataStr 2
          latitude := gnssField dataStr 3
          longitude := gnssField dataStr 4
          altitude := gnssField dataStr 5
          speed := gnssField dataStr 6
          course := gnssField dataStr 7 }
      if (gnssField dataStr 3).length > 0 ∧ (gnssField dataStr 4).length > 0 ∧
         gnssField dataStr 3 ≠ zeroCoordStr ∧ gnssField dataStr 4 ≠ zeroCoordStr ∧
         gnssField dataStr 3 ≠ [] ∧ gnssField dataStr 4 ≠ [] then
        (true, { d1 with valid := true })
      else
        (false, { d1 with valid := false })

/-! ## GPS history log (`gps_handler.cpp` lines 314-632).

The `gps-log` Preferences namespace stores, per physical slot `i`, the
keys `lat_<i>`, `lon_<i>`, `spd_<i>`, `timeH_<i>`, `timeL_<i>`,
`src_<i>`, plus the legacy single-key `time_<i>` written by older
firmware.  Coordinates and speed (`float`) are modelled by exact
rationals; `putULong`/`getULong` values are 32-bit naturals. -/

/-- Model of Arduino `String::toFloat` on the decimal strings the tracker
produces: optional sign, integer digits, optional fraction.  IEEE
rounding is abstracted to the exact rational value (the claims below only
use exact zero tests and data flow through slots). -/
def parseDecimal (l : List Char) : Rat :=
  let core : List Char → Nat × Nat := fun l' =>
    let intPart := natOfDigitRun (l'.takeWhile isDigitChar) 0
    match l'.dropWhile isDigitChar with
    | '.' :: fr =>
      let frDigits := fr.takeWhile isDigitChar
      (intPart * 10 ^ frDigits.length + natOfDigitRun frDigits 0, 10 ^ frDigits.length)
    | _ => (intPart, 1)
  match l.dropWhile isSpaceChar with
  | '-' :: r => mkRat (-((core r).1 : Int)) (core r).2
  | '+' :: r => mkRat ((core r).1 : Int) (core r).2
  | l' => mkRat ((core l').1 : Int) (core l').2

/-- Per-slot contents of the `gps-log` namespace (total functions from
physical slot index; reads of never-written keys return the defaults,
which is the initial store). -/
structure LogStore where
  lat : Nat → Rat
  lon : Nat → Rat
  spd : Nat → Rat
  timeH : Nat → Nat
  timeL : Nat → Nat
  timeLegacy : Nat → Nat
  src : Nat → Nat

/-- RAM state of the logger: the static variables `logIndex`, `logCount`
(kept in sync with the persisted metadata keys of the same names),
together with the slot store. -/
structure LogState where
  logIndex : Nat
  logCount : Nat
  store : LogStore

/-- `MAX_GPS_HISTORY`. -/
def MAX_GPS_HISTORY : Nat := 50

/-- Fresh store: every `get` returns its default. -/
def emptyLogStore : LogStore :=
  ⟨fun _ => 0, fun _ => 0, fun _ => 0, fun _ => 0, fun _ => 0, fun _ => 0, fun _ => 0⟩

/-- State after `clearGPSHistory` / on first boot. -/
def initialLogState : LogState := ⟨0, 0, emptyLogStore⟩

/-- The invariants of §3 of the spec: `writeIndex ∈ [0, 50)`,
`count ∈ [0, 50]` (both hold in every reachable state). -/
def WFLog (st : LogState) : Prop :=
  st.logIndex < MAX_GPS_HISTORY ∧ st.logCount ≤ MAX_GPS_HISTORY

instance (st : LogState) : Decidable (WFLog st) := by
  unfold WFLog; infer_instance

/-- One history entry as read back by `getGPSLogEntry`
(`GPSLogEntry` in `gps_handler.h`).  Its `timestamp` field is declared
`unsigned long`, i.e. 32 bits on the ESP32 target, so every assignment
to it truncates modulo `2 ^ 32`. -/
structure GPSLogEntry where
  lat : Rat
  lon : Rat
  speed : Rat
  timestamp : Nat
  source : Nat
deriving Repr, DecidableEq

/-- The five-field read of `getGPSLogEntry` at physical slot `j`
(lines 490-523), including the legacy-timestamp fallback: the
reconstruction `(hi << 32) | lo` and the baseline addition are truncated
by the 32-bit `entry.timestamp` assignment. -/
def readSlot (store : LogStore) (j : Nat) : GPSLogEntry :=
  let hi := store.timeH j
  let lo := store.timeL j
  let ts0 := (hi <<< 32 ||| lo) % 2 ^ 32
  let ts :=
    if hi = 0 then
      let legacy := store.timeLegacy j
      if legacy < 1000000000000 then (1735689600000 + legacy) % 2 ^ 32 else legacy
    else ts0
  ⟨store.lat j, store.lon j, store.spd j, ts, store.src j⟩

/-- The logical-to-physical slot computation of `getGPSLogEntry`
(lines 473-480), with C++ `int` arithmetic: `%` on `int` is truncated
division, `Int.tmod`. -/
def physIndex (st : LogState) (index : Int) : Int :=
  if st.logCount < MAX_GPS_HISTORY then index
  else ((st.logIndex : Int) - st.logCount + index + MAX_GPS_HISTORY).tmod MAX_GPS_HISTORY

/-- Model of `getGPSLogEntry(index, entry)`: `none` models the `false`
return, `some e` the `true` return with `entry` filled in. -/
def getGPSLogEntry (st : LogState) (index : Int) : Option GPSLogEntry :=
  if index < 0 ∨ index ≥ (st.logCount : Int) then none
  else some (readSlot st.store (physIndex st index).toNat)

/-- Write the five new-format keys of slot `i` (lines 363-376).  The
legacy `time_<i>` key is not written. -/
def writeSlot (store : LogStore) (i : Nat) (lat lon speed : Rat)
    (timestamp : Nat) (source : Nat) : LogStore :=
  { store with
    lat := fun j => if j = i then lat else store.lat j
    lon := fun j => if j = i then lon else store.lon j
    spd := fun j => if j = i then speed else store.spd j
    timeH := fun j => if j = i then (timestamp >>> 32) % 2 ^ 32 else store.timeH j
    timeL := fun j => if j = i then timestamp % 2 ^ 32 else store.timeL j
    src := fun j => if j = i then source % 2 ^ 8 else store.src j }

/-- Model of the `GPSData` overload of `logGPSPoint` (lines 331-392):
rejects invalid data without touching any state, otherwise stores the
converted point at `logIndex`, advances the circular index and saturates
the count. -/
def logGPSPoint (st : LogState) (data : GPSData) (source : Nat) : Bool × LogState :=
  if data.valid = false then (false, st)
  else
    let lat := parseDecimal data.latitude
    let lon := parseDecimal data.longitude
    let speed := parseDecimal data.speed
    let store' := writeSlot st.store st.logIndex lat lon speed data.timestamp source
    let logIndex' := (st.logIndex + 1) % MAX_GPS_HISTORY
    let logCount' := if st.logCount < MAX_GPS_HISTORY then st.logCount + 1 else st.logCount
    (true, ⟨logIndex', logCount', store'⟩)

/-! ## History pagination (`getGPSHistoryPageJSON`, lines 564-620).

The function's JSON string output is modelled structurally: the page it
renders is the list of emitted entries plus the four metadata fields. -/

/-- Structural model of the rendered history page. -/
structure HistoryPage where
  history : List GPSLogEntry
  page : Int
  totalPages : Int
  totalPoints : Int
  pointsPerPage : Int
deriving Repr, DecidableEq

/-- Model of `getGPSHistoryPageJSON(page, pointsPerPage)`.  C++ `int`
division truncates (`Int.tdiv`); the entry filter keeps points with
`lat != 0.0 || lon != 0.0`. -/
def getGPSHistoryPageJSON (st : LogState) (page pointsPerPage : Int) : HistoryPage :=
  let count : Int := st.logCount
  let totalPages : Int :=
    if count > 0 then (count + pointsPerPage - 1).tdiv pointsPerPage else 0
  let startIdx := page * pointsPerPage
  let endIdx := min (startIdx + pointsPerPage) count
  if page < 0 ∨ page ≥ totalPages ∨ count = 0 then
    ⟨[], page, totalPages, count, pointsPerPage⟩
  else
    let idxs := (List.range (endIdx - startIdx).toNat).map (fun (k : Nat) => startIdx + (k : Int))
    let entries := idxs.filterMap (fun i => getGPSLogEntry st i)
    let hist := entries.filter (fun e => decide (e.lat ≠ 0) || decide (e.lon ≠ 0))
    ⟨hist, page, totalPages, count, pointsPerPage⟩

/-- Number of logical indices on a page:
`min((page+1)*pageSize, count) - page*pageSize`. -/
def pageLen (st : LogState) (page ppp : Int) : Nat :=
  (min (page * ppp + ppp) (st.logCount : Int) - page * ppp).toNat

/-- The entry at the k-th logical index of a page, read through the
logical-to-physical slot mapping. -/
def pageEntry (st : LogState) (page ppp : Int) (k : Nat) : GPSLogEntry :=
  readSlot st.store (physIndex st (page * ppp + (k : Int))).toNat

/-! ## SMS pair sending (`sendSMSPair`, `sms_handler.cpp` lines 81-233).

The serial exchanges are modelled by an oracle giving each transaction's
outcome.  The returned record captures the function's observable
behaviour: its `bool` result, whether the second message's addressed-send
command was ever issued, and whether `updateLastSMSTime()` ran (that call
both sets the in-memory timestamp and persists it to the `sms-data`
namespace, so one flag covers both). -/

/-- Outcome of a send-confirmation wait: `+CMGS:`/`OK` seen, an `ERROR`
token seen, or timeout. -/
inductive ConfirmResult
  | confirmed
  | error
  | timeout
deriving Repr, DecidableEq

/-- Oracle for one `sendSMSPair` run. `cmgf2` is the result of the second
`AT+CMGF=1`, which the code issues but ignores. -/
structure SmsEnv where
  atOk : Bool
  netReg : Bool
  cmgf1 : Bool
  prompt1 : Bool
  confirm1 : ConfirmResult
  cmgf2 : Bool
  prompt2 : Bool
  confirm2 : ConfirmResult
deriving Repr, DecidableEq

/-- Observable outcome of `sendSMSPair`. -/
structure SmsOutcome where
  success : Bool
  secondAttempted : Bool
  timeUpdated : Bool
deriving Repr, DecidableEq

/-- Model of `sendSMSPair`, transcribing its control flow:
module check, network check, text mode, first prompt, first
confirmation (ERROR aborts, timeout aborts), then the second message:
prompt failure returns `true` early (line 201) without updating the
timestamp; a confirmed second send updates it (line 220); a failed or
timed-out second confirmation falls through to line 231, which also
updates it. -/
def sendSMSPair (env : SmsEnv) : SmsOutcome :=
  if env.atOk = false then ⟨false, false, false⟩
  else if env.netReg = false then ⟨false, false, false⟩
  else if env.cmgf1 = false then ⟨false, false, false⟩
  else if env.prompt1 = false then ⟨false, false, false⟩
  else
    match env.confirm1 with
    | .error => ⟨false, false, false⟩
    | .timeout => ⟨false, false, false⟩
    | .confirmed =>
      if env.prompt2 = false then ⟨true, true, false⟩
      else
        match env.confirm2 with
        | .confirmed => ⟨true, true, true⟩
        | .error => ⟨true, true, true⟩
        | .timeout => ⟨true, true, true⟩

/-! ## Modem initialization (`initializeSIM7070G`, `sim7070g.cpp`
lines 26-66).

The AT transport is an oracle `resp : Nat → Bool` giving the result of
the k-th liveness probe.  The loop
`while (!sendATCommand("AT", "OK") && attempts < 5)` evaluates its left
operand first, so every condition check issues one probe; when the first
five probes fail the condition is evaluated a sixth time (one more
probe) before `attempts < 5` stops the loop, and `attempts >= 5` then
fails the call even if that sixth probe succeeded. -/

/-- Outcome of one `initializeSIM7070G` call. `configCmds` counts the
non-liveness AT commands issued (`AT+CSQ`, `AT+CMGF=1`, `AT+CSMP`,
issued only on the success path). -/
structure InitResult where
  ok : Bool
  initialized : Bool
  atProbes : Nat
  configCmds : Nat
deriving Repr, DecidableEq

/-- The liveness polling loop.  Arguments: probe oracle, index of the
next probe, current `attempts`.  Returns the final `attempts` value and
the total number of probes issued. -/
def livenessLoop (resp : Nat → Bool) (k attempts : Nat) : Nat × Nat :=
  if resp k then (attempts, k + 1)
  else if attempts < 5 then livenessLoop resp (k + 1) (attempts + 1)
  else (attempts, k + 1)
termination_by 5 - attempts

/-- Model of `initializeSIM7070G` given the current
`sim7070gInitialized` flag; returns result, new flag, and AT traffic
counts. -/
def initializeSIM7070G (alreadyInit : Bool) (resp : Nat → Bool) : InitResult :=
  if alreadyInit then ⟨true, true, 0, 0⟩
  else
    let r := livenessLoop resp 0 0
    if r.1 ≥ 5 then ⟨false, false, r.2, 0⟩
    else ⟨true, true, r.2, 3⟩

/-! ## Concrete test fixtures -/

/-- A valid `GPSData` fixture whose latitude string is the decimal of
`j`, so successive appends are distinguishable in the store. -/
def mkTestData (j : Nat) : GPSData :=
  ⟨(Nat.repr j).data, ['7'], [], [], ['0'], [], true, 0⟩

/-- State after `n` appends of `mkTestData 1 .. mkTestData n` to a fresh
log. -/
def appendMany : Nat → LogState
  | 0 => initialLogState
  | n + 1 => (logGPSPoint (appendMany n) (mkTestData (n + 1)) 1).2

/-- A log of 5 entries (latitudes 1..5), the pagination example. -/
def log5State : LogState := appendMany 5

/-- A valid `GPSData` whose coordinate strings decode to `0.0, 0.0`. -/
def zeroCoordData : GPSData :=
  ⟨"0.000000".data, "0.000000".data, [], [], ['0'], [], true, 0⟩

/-- A log of 3 entries whose middle slot holds `lat = 0.0, lon = 0.0`. -/
def logWithZeroState : LogState :=
  (logGPSPoint
    (logGPSPoint
      (logGPSPoint initialLogState (mkTestData 1) 1).2 zeroCoordData 1).2
    (mkTestData 3) 1).2

/-- A `GPSData` with the `valid` flag cleared. -/
def invalidFixData : GPSData :=
  ⟨"45.0".data, "7.0".data, [], [], [], [], false, 123⟩

/-- `GPSData` with all fields defaulted, the `data` out-parameter fed to
`parseGNSSData` in the examples. -/
def emptyGPSData : GPSData := ⟨[], [], [], [], [], [], false, 0⟩

/-- A fix-query response with run/fix flags `1,1` and the coordinates of
the C2 example. -/
def sampleFixResponse : List Char :=
  "+CGNSINF: 1,1,20241225115959.000,45.123456,-122.654321,102.5,0.0,90.0,1,,1.2,1.5,1.0,,11,6,,,39,,\r\nOK".data

/-- A slot store whose new-format timestamp words read `hi = 1`,
`lo = 5` (as written for any 64-bit timestamp `2 ^ 32 + 5`). -/
def hiLoStore : LogStore :=
  { emptyLogStore with timeH := fun _ => 1, timeL := fun _ => 5 }

/-- A slot store holding only a legacy single-key timestamp `7`. -/
def legacyStore : LogStore :=
  { emptyLogStore with timeLegacy := fun _ => 7 }

/-! # Theorems -/

/-! ## C10: invalid data leaves the log untouched -/

/-- C10: for every `GPSData` with `valid == false` and every source tag,
the `GPSData` overload of `logGPSPoint` returns `false` and leaves the
entire history log state — `logIndex`, `logCount` and every stored
slot — unchanged. -/
theorem logGPSPoint_invalid_no_state_change (st : LogState) (data : GPSData)
    (source : Nat) (h : data.valid = false) :
    logGPSPoint st data source = (false, st) := by
  simp [logGPSPoint, h]

/-- Witness for C10 at a concrete invalid fix and the fresh log state. -/
theorem logGPSPoint_invalid_no_state_change_witness :
    logGPSPoint initialLogState invalidFixData 0 = (false, initialLogState) :=
  logGPSPoint_invalid_no_state_change initialLogState invalidFixData 0 rfl

/-! ## C9: the 64-bit timestamp reconstruction truncates

`GPSLogEntry.timestamp` is declared `unsigned long`, which is 32 bits on
the ESP32 target, so the read-back `(hi << 32) | lo` is truncated to
`lo` whenever `hi` is nonzero — contradicting the source's own comments
("Read 64-bit timestamp from two 32-bit values") and the write-side
hi/lo split. -/

/-- C9 (divergence exhibit): for a slot stored with timestamp words
`hi = 1, lo = 5` (the hi/lo split of the 64-bit value `2 ^ 32 + 5`),
`getGPSLogEntry` returns timestamp `5`, not `(1 <<< 32) ||| 5`; and for a
legacy slot with old value `7`, the result is the baseline sum truncated
modulo `2 ^ 32`, not the baseline sum itself. -/
theorem getGPSLogEntry_timestamp_truncated :
    getGPSLogEntry ⟨1, 1, hiLoStore⟩ 0 = some ⟨0, 0, 0, 5, 0⟩ ∧
    ((1 : Nat) <<< 32 ||| 5) ≠ 5 ∧
    getGPSLogEntry ⟨1, 1, legacyStore⟩ 0 = some ⟨0, 0, 0, (1735689600000 + 7) % 2 ^ 32, 0⟩ ∧
    (1735689600000 + 7) % 2 ^ 32 ≠ 1735689600000 + 7 := by
  refine ⟨by decide, by decide, by decide, by decide⟩

/-! ## C3: SMS pair partial-success policy -/

/-- C3 (counterexample): when the first message succeeds but the second
message's prompt wait fails, `sendSMSPair` reports success yet does NOT
update the last-SMS timestamp (the early return at line 201 skips
`updateLastSMSTime`), contradicting the claim that the timestamp is
still updated in that case. -/
theorem sendSMSPair_second_prompt_fail_skips_time_update :
    (sendSMSPair ⟨true, true, true, true, .confirmed, true, false, .confirmed⟩).success = true ∧
    (sendSMSPair ⟨true, true, true, true, .confirmed, true, false, .confirmed⟩).timeUpdated = false := by
  exact ⟨rfl, rfl⟩

/-- C3 (amended): if the first message's prompt and confirmation succeed,
`sendSMSPair` returns success whatever happens to the second message; the
last-SMS timestamp is updated when the second prompt arrives (even if the
second confirmation then fails or times out) but NOT when the second
prompt wait itself fails.  Conversely, any failure before or during the
first message returns failure without attempting the second message. -/
theorem sendSMSPair_partial_success (env : SmsEnv) :
    (env.atOk = true → env.netReg = true → env.cmgf1 = true → env.prompt1 = true →
      env.confirm1 = .confirmed →
      (env.prompt2 = false → sendSMSPair env = ⟨true, true, false⟩) ∧
      (env.prompt2 = true → sendSMSPair env = ⟨true, true, true⟩)) ∧
    ((env.atOk = false ∨ env.netReg = false ∨ env.cmgf1 = false ∨ env.prompt1 = false ∨
      env.confirm1 ≠ .confirmed) → sendSMSPair env = ⟨false, false, false⟩) := by
  obtain ⟨a, n, c1, p1, f1, c2, p2, f2⟩ := env
  cases a <;> cases n <;> cases c1 <;> cases p1 <;> cases f1 <;> cases p2 <;> cases f2 <;>
    simp_all [sendSMSPair]

/-- Witness for C3 (amended), at a run whose second confirmation times
out: overall success with the timestamp updated. -/
theorem sendSMSPair_partial_success_witness :
    sendSMSPair ⟨true, true, true, true, .confirmed, true, true, .timeout⟩ = ⟨true, true, true⟩ :=
  ((sendSMSPair_partial_success _).1 rfl rfl rfl rfl rfl).2 rfl

/-! ## C4: modem initialization -/

/-- C4 (counterexample): when the modem never answers, the liveness
polling of `initializeSIM7070G` issues six `AT` probes, not five: the
loop condition `!sendATCommand("AT", "OK") && attempts < 5` issues a
probe on every evaluation, including the final one that exits on
`attempts < 5`. -/
theorem initializeSIM7070G_six_probes :
    ¬ ((initializeSIM7070G false (fun _ => false)).atProbes ≤ 5) := by
  simp [initializeSIM7070G, livenessLoop]

/-- C4 (amended): `initializeSIM7070G` is idempotent — when already
initialized it returns success immediately with zero AT traffic — and
otherwise polls liveness with up to six `AT` probes (five retries at 1 s
spacing after the first); whenever the first five probes fail it returns
failure (even if the sixth probe succeeded, its result is discarded) and
leaves the initialized flag unset, so a later call starts over. -/
theorem initializeSIM7070G_idempotent_and_failure :
    (∀ resp : Nat → Bool, initializeSIM7070G true resp = ⟨true, true, 0, 0⟩) ∧
    (∀ resp : Nat → Bool, (∀ i, i < 5 → resp i = false) →
      initializeSIM7070G false resp = ⟨false, false, 6, 0⟩) := by
  refine ⟨fun resp => rfl, fun resp h => ?_⟩
  have h0 := h 0 (by norm_num)
  have h1 := h 1 (by norm_num)
  have h2 := h 2 (by norm_num)
  have h3 := h 3 (by norm_num)
  have h4 := h 4 (by norm_num)
  simp [initializeSIM7070G, livenessLoop, h0, h1, h2, h3, h4]

/-- Witness for C4 (amended) at the always-silent modem. -/
theorem initializeSIM7070G_idempotent_and_failure_witness :
    initializeSIM7070G false (fun _ => false) = ⟨false, false, 6, 0⟩ :=
  initializeSIM7070G_idempotent_and_failure.2 (fun _ => false) (fun _ _ => rfl)

/-! ## C1: circular-buffer logical-to-physical mapping -/

/-- C++ `%` on `int` (truncated) agrees with the mathematical modulus on
non-negative operands. -/
theorem tmod_eq_emod_of_nonneg {a b : Int} (ha : 0 ≤ a) (hb : 0 ≤ b) :
    a.tmod b = a % b := by
  obtain ⟨m, rfl⟩ := Int.eq_ofNat_of_zero_le ha
  obtain ⟨n, rfl⟩ := Int.eq_ofNat_of_zero_le hb
  rfl

set_option maxRecDepth 8000 in
/-- C1: for every well-formed history log state and logical index
`i ∈ [0, count)`: while `count < 50`, `getGPSLogEntry i` reads back
physical slot `i`; once `count == 50`, it reads back physical slot
`(writeIndex - count + i + 50) mod 50`.  In particular, after exactly 50
appends followed by one more, logical index 0 maps to physical slot 1
(which holds the second point ever appended, latitude 2), and physical
slot 0 holds the newest, most recently overwritten entry (latitude 51,
the 51st append). -/
theorem getGPSLogEntry_mapping :
    (∀ (st : LogState) (i : Int), WFLog st → 0 ≤ i → i < (st.logCount : Int) →
      (st.logCount < MAX_GPS_HISTORY →
        getGPSLogEntry st i = some (readSlot st.store i.toNat)) ∧
      (st.logCount = MAX_GPS_HISTORY →
        getGPSLogEntry st i =
          some (readSlot st.store
            ((((st.logIndex : Int) - (st.logCount : Int) + i + (MAX_GPS_HISTORY : Int)) %
              (MAX_GPS_HISTORY : Int)).toNat)))) ∧
    (getGPSLogEntry (appendMany 51) 0 = some (readSlot (appendMany 51).store 1) ∧
     (readSlot (appendMany 51).store 1).lat = 2 ∧
     (readSlot (appendMany 51).store 0).lat = 51 ∧
     (appendMany 51).logIndex = 1 ∧ (appendMany 51).logCount = 50) := by
  constructor
  · intro st i hwf h0 hlt
    have hno : ¬ (i < 0 ∨ i ≥ (st.logCount : Int)) := by omega
    constructor
    · intro hc
      rw [getGPSLogEntry, if_neg hno, physIndex, if_pos hc]
    · intro hc
      rw [getGPSLogEntry, if_neg hno, physIndex, if_neg (by omega),
        tmod_eq_emod_of_nonneg (by have := hwf.1; omega) (by norm_num)]
  · exact ⟨by decide, by decide, by decide, by decide, by decide⟩

set_option maxRecDepth 8000 in
/-- Witness for C1 at the 51-append state and logical index 0. -/
theorem getGPSLogEntry_mapping_witness :
    getGPSLogEntry (appendMany 51) 0 =
      some (readSlot (appendMany 51).store
        (((((appendMany 51).logIndex : Int) - ((appendMany 51).logCount : Int) + 0 +
           (MAX_GPS_HISTORY : Int)) % (MAX_GPS_HISTORY : Int)).toNat)) :=
  (getGPSLogEntry_mapping.1 (appendMany 51) 0 (by decide) (by decide) (by decide)).2 (by decide)


/-! ## C7 and C8: history pagination -/

/-- Ceiling-division characterization: `(c + p - 1) / p` is the least
number of size-`p` pages covering `c` points. -/

theorem ceil_div_bounds (c p : Nat) (hp : 0 < p) :
    c ≤ ((c + p - 1) / p) * p ∧ ((c + p - 1) / p) * p < c + p := by
  set q := (c + p - 1) / p with hq1
  set r := (c + p - 1) % p with hr1
  have hq : p * q + r = c + p - 1 := Nat.div_add_mod (c + p - 1) p
  have hr : r < p := Nat.mod_lt _ hp
  have h1 : 1 ≤ c + p := by omega
  zify [h1] at hq
  constructor
  · zify; nlinarith [hq, hr]
  · zify; nlinarith [hq, hr]

theorem totalPages_val (st : LogState) (page ppp : Int) :
    (getGPSHistoryPageJSON st page ppp).totalPages =
      (if (st.logCount : Int) > 0 then ((st.logCount : Int) + ppp - 1).tdiv ppp else 0) := by
  simp only [getGPSHistoryPageJSON]
  rw [apply_ite (fun r : HistoryPage => r.totalPages)]
  simp

theorem pageJSON_metadata (st : LogState) (page ppp : Int) :
    (getGPSHistoryPageJSON st page ppp).page = page ∧
    (getGPSHistoryPageJSON st page ppp).totalPoints = (st.logCount : Int) ∧
    (getGPSHistoryPageJSON st page ppp).pointsPerPage = ppp := by
  refine ⟨?_, ?_, ?_⟩ <;> simp only [getGPSHistoryPageJSON]
  · rw [apply_ite (fun r : HistoryPage => r.page)]; simp
  · rw [apply_ite (fun r : HistoryPage => r.totalPoints)]; simp
  · rw [apply_ite (fun r : HistoryPage => r.pointsPerPage)]; simp

theorem tdiv_cast_nat (a b : Nat) : ((a : Int)).tdiv (b : Int) = ((a / b : Nat) : Int) := rfl

theorem filterMap_getGPSLogEntry (st : LogState) (l : List Int)
    (h : ∀ i ∈ l, 0 ≤ i ∧ i < (st.logCount : Int)) :
    l.filterMap (fun i => getGPSLogEntry st i) =
      l.map (fun i => readSlot st.store (physIndex st i).toNat) := by
  induction l with
  | nil => rfl
  | cons a t ih =>
    have ha := h a (List.mem_cons_self a t)
    have hsome : getGPSLogEntry st a = some (readSlot st.store (physIndex st a).toNat) := by
      rw [getGPSLogEntry, if_neg (by omega)]
    simp only [List.filterMap_cons, List.map_cons, hsome]
    rw [ih (fun i hi => h i (List.mem_cons_of_mem a hi))]

theorem history_in_range (st : LogState) (page ppp : Int) (hp : 0 < ppp) (h0 : 0 ≤ page)
    (hlt : page < (getGPSHistoryPageJSON st page ppp).totalPages) :
    (getGPSHistoryPageJSON st page ppp).history =
      ((List.range (pageLen st page ppp)).map (pageEntry st page ppp)).filter
        (fun e => decide (e.lat ≠ 0) || decide (e.lon ≠ 0)) := by
  rw [totalPages_val] at hlt
  have hc0 : (st.logCount : Int) ≠ 0 := by
    intro h
    rw [h] at hlt
    simp at hlt
    omega
  have hncond : ¬(page < 0 ∨
      page ≥ (if (st.logCount : Int) > 0 then ((st.logCount : Int) + ppp - 1).tdiv ppp else 0) ∨
      (st.logCount : Int) = 0) := by
    push_neg
    exact ⟨h0, hlt, hc0⟩
  have hmem : ∀ i ∈ (List.range (pageLen st page ppp)).map (fun (k : Nat) => page * ppp + (k : Int)),
      0 ≤ i ∧ i < (st.logCount : Int) := by
    intro i hi
    obtain ⟨k, hk, rfl⟩ := List.mem_map.mp hi
    have hk' := List.mem_range.mp hk
    unfold pageLen at hk'
    have hs : 0 ≤ page * ppp := mul_nonneg h0 hp.le
    set s := page * ppp with hsdef
    omega
  simp only [getGPSHistoryPageJSON]
  rw [if_neg hncond]
  rw [show ((page * ppp + ppp) ⊓ (st.logCount : Int) - page * ppp).toNat = pageLen st page ppp from rfl]
  rw [filterMap_getGPSLogEntry st _ hmem, List.map_map]
  rfl


theorem getGPSHistoryPageJSON_pagination :
    (∀ (st : LogState) (page ppp : Int), 0 < ppp →
      (getGPSHistoryPageJSON st page ppp).page = page ∧
      (getGPSHistoryPageJSON st page ppp).totalPoints = (st.logCount : Int) ∧
      (getGPSHistoryPageJSON st page ppp).pointsPerPage = ppp ∧
      (st.logCount : Int) ≤ (getGPSHistoryPageJSON st page ppp).totalPages * ppp ∧
      (getGPSHistoryPageJSON st page ppp).totalPages * ppp < (st.logCount : Int) + ppp) ∧
    (∀ (st : LogState) (page ppp : Int),
      (page < 0 ∨ page ≥ (getGPSHistoryPageJSON st page ppp).totalPages ∨ st.logCount = 0) →
      (getGPSHistoryPageJSON st page ppp).history = []) ∧
    (∀ (st : LogState) (page ppp : Int), 0 < ppp → 0 ≤ page →
      page < (getGPSHistoryPageJSON st page ppp).totalPages →
      (∀ k, k < pageLen st page ppp →
        (pageEntry st page ppp k).lat ≠ 0 ∨ (pageEntry st page ppp k).lon ≠ 0) →
      (getGPSHistoryPageJSON st page ppp).history =
        (List.range (pageLen st page ppp)).map (pageEntry st page ppp)) ∧
    ((getGPSHistoryPageJSON log5State 0 2).history.map (fun e => e.lat) = [1, 2] ∧
     (getGPSHistoryPageJSON log5State 1 2).history.map (fun e => e.lat) = [3, 4] ∧
     (getGPSHistoryPageJSON log5State 2 2).history.map (fun e => e.lat) = [5] ∧
     (getGPSHistoryPageJSON log5State 0 2).totalPages = 3 ∧
     (getGPSHistoryPageJSON log5State 3 2).history = [] ∧
     (getGPSHistoryPageJSON log5State 3 2).totalPoints = 5 ∧
     (getGPSHistoryPageJSON log5State (-1) 2).history = [] ∧
     (getGPSHistoryPageJSON log5State (-1) 2).totalPoints = 5) := by
  refine ⟨?_, ?_, ?_, ?_⟩
  · intro st page ppp hp
    obtain ⟨h1, h2, h3⟩ := pageJSON_metadata st page ppp
    refine ⟨h1, h2, h3, ?_, ?_⟩ <;> rw [totalPages_val]
    all_goals by_cases hc : (st.logCount : Int) > 0
    case pos =>
      rw [if_pos hc]
      obtain ⟨p, rfl⟩ := Int.eq_ofNat_of_zero_le hp.le
      have hp' : 0 < p := by exact_mod_cast hp
      have hcast : ((st.logCount : Int) + (p : Int) - 1) = ((st.logCount + p - 1 : Nat) : Int) := by
        omega
      rw [hcast, tdiv_cast_nat]
      exact_mod_cast (ceil_div_bounds st.logCount p hp').1
    case neg =>
      rw [if_neg hc]
      simp
      omega
    case pos =>
      rw [if_pos hc]
      obtain ⟨p, rfl⟩ := Int.eq_ofNat_of_zero_le hp.le
      have hp' : 0 < p := by exact_mod_cast hp
      have hcast : ((st.logCount : Int) + (p : Int) - 1) = ((st.logCount + p - 1 : Nat) : Int) := by
        omega
      rw [hcast, tdiv_cast_nat]
      have := (ceil_div_bounds st.logCount p hp').2
      push_cast
      exact_mod_cast this
    case neg =>
      rw [if_neg hc]
      simp
      omega
  · intro st page ppp hcond
    rw [totalPages_val] at hcond
    have hcond' : page < 0 ∨
        page ≥ (if (st.logCount : Int) > 0 then ((st.logCount : Int) + ppp - 1).tdiv ppp else 0) ∨
        (st.logCount : Int) = 0 := by
      rcases hcond with h | h | h
      · exact Or.inl h
      · exact Or.inr (Or.inl h)
      · exact Or.inr (Or.inr (by exact_mod_cast h))
    simp only [getGPSHistoryPageJSON]
    rw [if_pos hcond']
  · intro st page ppp hp h0 hlt hnz
    rw [history_in_range st page ppp hp h0 hlt]
    apply List.filter_eq_self.mpr
    intro e he
    obtain ⟨k, hk, rfl⟩ := List.mem_map.mp he
    rcases hnz k (List.mem_range.mp hk) with h | h <;> simp [h]
  · exact ⟨by decide, by decide, by decide, by decide, by decide, by decide, by decide, by decide⟩

theorem getGPSHistoryPageJSON_pagination_witness :
    (getGPSHistoryPageJSON log5State 0 2).page = 0 ∧
    (getGPSHistoryPageJSON log5State 0 2).totalPoints = (log5State.logCount : Int) ∧
    (getGPSHistoryPageJSON log5State 0 2).pointsPerPage = 2 ∧
    (log5State.logCount : Int) ≤ (getGPSHistoryPageJSON log5State 0 2).totalPages * 2 ∧
    (getGPSHistoryPageJSON log5State 0 2).totalPages * 2 < (log5State.logCount : Int) + 2 :=
  getGPSHistoryPageJSON_pagination.1 log5State 0 2 (by norm_num)

theorem getGPSHistoryPageJSON_zero_skip :
    (∀ (st : LogState) (page ppp : Int), 0 < ppp → 0 ≤ page →
      page < (getGPSHistoryPageJSON st page ppp).totalPages →
      (getGPSHistoryPageJSON st page ppp).history =
        ((List.range (pageLen st page ppp)).map (pageEntry st page ppp)).filter
          (fun e => decide (e.lat ≠ 0) || decide (e.lon ≠ 0)) ∧
      (getGPSHistoryPageJSON st page ppp).totalPoints = (st.logCount : Int)) ∧
    ((pageEntry logWithZeroState 0 3 1).lat = 0 ∧ (pageEntry logWithZeroState 0 3 1).lon = 0 ∧
     (getGPSHistoryPageJSON logWithZeroState 0 3).history.map (fun e => e.lat) = [1, 3] ∧
     (getGPSHistoryPageJSON logWithZeroState 0 3).totalPoints = 3) := by
  constructor
  · intro st page ppp hp h0 hlt
    exact ⟨history_in_range st page ppp hp h0 hlt, (pageJSON_metadata st page ppp).2.1⟩
  · exact ⟨by decide, by decide, by decide, by decide⟩

theorem getGPSHistoryPageJSON_zero_skip_witness :
    (getGPSHistoryPageJSON logWithZeroState 0 3).history =
      ((List.range (pageLen logWithZeroState 0 3)).map (pageEntry logWithZeroState 0 3)).filter
        (fun e => decide (e.lat ≠ 0) || decide (e.lon ≠ 0)) ∧
    (getGPSHistoryPageJSON logWithZeroState 0 3).totalPoints = (logWithZeroState.logCount : Int) :=
  getGPSHistoryPageJSON_zero_skip.1 logWithZeroState 0 3 (by norm_num) (by norm_num) (by decide)



/-! ## C2: fix validity of parsed GNSS responses -/

/-- Every character of a pattern matched at the head of a list is in the
list. -/
theorem listStartsWith_mem {pat l : List Char} (h : listStartsWith pat l = true) :
    ∀ c ∈ pat, c ∈ l := by
  induction pat generalizing l with
  | nil => intro c hc; cases hc
  | cons p ps ih =>
    cases l with
    | nil => simp [listStartsWith] at h
    | cons x xs =>
      simp only [listStartsWith, Bool.and_eq_true, beq_iff_eq] at h
      obtain ⟨rfl, h2⟩ := h
      intro c hc
      rcases List.mem_cons.mp hc with rfl | hc
      · exact List.mem_cons_self _ _
      · exact List.mem_cons_of_mem _ (ih h2 c hc)

/-- Every character of a pattern that occurs in a list is in the
list. -/
theorem firstOccur_mem {l pat : List Char} {n : Nat} (h : firstOccur l pat = some n) :
    ∀ c ∈ pat, c ∈ l := by
  induction l generalizing n with
  | nil =>
    simp only [firstOccur] at h
    split at h
    · intro c hc
      rename_i hemp
      rw [List.isEmpty_iff.mp hemp] at hc
      cases hc
    · cases h
  | cons x t ih =>
    simp only [firstOccur] at h
    split at h
    · rename_i hs
      exact listStartsWith_mem hs
    · rcases Option.map_eq_some'.mp h with ⟨m, hm, _⟩
      intro c hc
      exact List.mem_cons_of_mem _ (ih hm c hc)

/-- A single-character pattern that is a member of the list is found by
`firstOccur`. -/
theorem mem_firstOccur_single {l : List Char} {c : Char} (h : c ∈ l) :
    ∃ n, firstOccur l [c] = some n := by
  induction l with
  | nil => cases h
  | cons x t ih =>
    by_cases hx : listStartsWith [c] (x :: t) = true
    · exact ⟨0, by simp [firstOccur, hx]⟩
    · have hct : c ∈ t := by
        rcases List.mem_cons.mp h with rfl | ht
        · exact absurd (by simp [listStartsWith]) hx
        · exact ht
      obtain ⟨m, hm⟩ := ih hct
      exact ⟨m + 1, by simp [firstOccur, hx, hm]⟩

/-- `String::indexOf` of a present character is non-negative. -/
theorem cppIndexOf_single_nonneg {l : List Char} {c : Char} (h : c ∈ l) :
    0 ≤ cppIndexOf l [c] := by
  obtain ⟨n, hn⟩ := mem_firstOccur_single h
  simp [cppIndexOf, hn]

/-- C2: for every response string carrying the run/fix flags `1,1`
pattern, `parseGNSSData` sets `valid == true` iff the extracted latitude
and longitude are both non-empty and neither equals the literal
`"0.000000"`; in particular the sample response with coordinates
`45.123456, -122.654321` parses to `valid == true`. -/
theorem parseGNSSData_validity :
    (∀ (s : List Char) (d : GPSData), cppIndexOf s cgnsinfFixPat ≠ -1 →
      ((parseGNSSData s d).2.valid = true ↔
        ((parseGNSSData s d).2.latitude ≠ [] ∧ (parseGNSSData s d).2.longitude ≠ [] ∧
         (parseGNSSData s d).2.latitude ≠ zeroCoordStr ∧
         (parseGNSSData s d).2.longitude ≠ zeroCoordStr))) ∧
    (parseGNSSData sampleFixResponse emptyGPSData).2.valid = true := by
  constructor
  · intro s d h
    have hocc : ∃ n, firstOccur s cgnsinfFixPat = some n := by
      rcases he : firstOccur s cgnsinfFixPat with _ | n
      · exact absurd (by simp [cppIndexOf, he]) h
      · exact ⟨n, rfl⟩
    obtain ⟨n, hn⟩ := hocc
    have hcolon : (':' : Char) ∈ s := firstOccur_mem hn ':' (by decide)
    have hge : 0 ≤ cppIndexOf s [':'] := cppIndexOf_single_nonneg hcolon
    have hlt : ¬ (cppIndexOf s [':'] + 1 < 1) := by omega
    simp only [parseGNSSData]
    rw [if_neg h, if_neg hlt]
    split
    · rename_i hcond
      simp only
      constructor
      · intro _
        exact ⟨hcond.2.2.2.2.1, hcond.2.2.2.2.2, hcond.2.2.1, hcond.2.2.2.1⟩
      · intro _
        trivial
    · rename_i hcond
      simp only
      constructor
      · intro hfalse
        exact Bool.noConfusion hfalse
      · intro hrhs
        exact absurd ⟨List.length_pos.mpr hrhs.1, List.length_pos.mpr hrhs.2.1,
          hrhs.2.2.1, hrhs.2.2.2, hrhs.1, hrhs.2.1⟩ hcond
  · decide

/-- Witness for C2 at the sample fix response. -/
theorem parseGNSSData_validity_witness :
    (parseGNSSData sampleFixResponse emptyGPSData).2.valid = true ↔
      ((parseGNSSData sampleFixResponse emptyGPSData).2.latitude ≠ [] ∧
       (parseGNSSData sampleFixResponse emptyGPSData).2.longitude ≠ [] ∧
       (parseGNSSData sampleFixResponse emptyGPSData).2.latitude ≠ zeroCoordStr ∧
       (parseGNSSData sampleFixResponse emptyGPSData).2.longitude ≠ zeroCoordStr) :=
  parseGNSSData_validity.1 sampleFixResponse emptyGPSData (by decide)


/-! ## C6: malformed datetime fallback -/

/-- C6: every input shorter than 14 characters, and every input one of
whose extracted fields lies outside year 2020-2100, month 1-12,
day 1-31, hour <= 23, minute <= 59, second <= 59 (which covers month 13
and hour 24), makes `parseGPSDateTimeToUnixMillis` return exactly the
fixed baseline constant. -/
theorem parseGPSDateTime_malformed_baseline :
    (∀ s : List Char, s.length < 14 → parseGPSDateTimeToUnixMillis s = gpsBaselineMillis) ∧
    (∀ s : List Char,
      (atol (listSubstring s 0 4) < 2020 ∨ atol (listSubstring s 0 4) > 2100 ∨
       atol (listSubstring s 4 6) < 1 ∨ atol (listSubstring s 4 6) > 12 ∨
       atol (listSubstring s 6 8) < 1 ∨ atol (listSubstring s 6 8) > 31 ∨
       atol (listSubstring s 8 10) > 23 ∨ atol (listSubstring s 10 12) > 59 ∨
       atol (listSubstring s 12 14) > 59) →
      parseGPSDateTimeToUnixMillis s = gpsBaselineMillis) := by
  constructor
  · intro s hs
    simp only [parseGPSDateTimeToUnixMillis]
    rw [if_pos hs]
  · intro s hbad
    by_cases hs : s.length < 14
    · simp only [parseGPSDateTimeToUnixMillis]
      rw [if_pos hs]
    · simp only [parseGPSDateTimeToUnixMillis]
      rw [if_neg hs, if_pos hbad]

/-- Witness for C6: a short input, a month-13 input, and an hour-24
input all map to the baseline. -/
theorem parseGPSDateTime_malformed_baseline_witness :
    parseGPSDateTimeToUnixMillis "2024123".data = gpsBaselineMillis ∧
    parseGPSDateTimeToUnixMillis "20241301000000".data = gpsBaselineMillis ∧
    parseGPSDateTimeToUnixMillis "20241201240000".data = gpsBaselineMillis :=
  ⟨parseGPSDateTime_malformed_baseline.1 _ (by decide),
   parseGPSDateTime_malformed_baseline.2 _ (by decide),
   parseGPSDateTime_malformed_baseline.2 _ (by decide)⟩

/-! ## C5: lexicographic monotonicity of the datetime normalizer -/

/-- A digit character has code point in [48, 57]. -/
theorem isDigitChar_toNat {c : Char} (h : isDigitChar c = true) :
    48 ≤ c.toNat ∧ c.toNat ≤ 57 := by
  simpa [isDigitChar, Bool.and_eq_true, decide_eq_true_iff] using h

/-- A digit string of length n has value below 10 ^ n. -/
theorem digitsToNat_lt {l : List Char} (h : l.all isDigitChar = true) :
    digitsToNat l < 10 ^ l.length := by
  induction l with
  | nil => simp [digitsToNat]
  | cons c r ih =>
    simp only [List.all_cons, Bool.and_eq_true] at h
    have hc := isDigitChar_toNat h.1
    have hr := ih h.2
    have hd : digitVal c ≤ 9 := by unfold digitVal; omega
    simp only [digitsToNat, List.length_cons, pow_succ]
    calc digitVal c * 10 ^ r.length + digitsToNat r
        < digitVal c * 10 ^ r.length + 10 ^ r.length := by omega
      _ = (digitVal c + 1) * 10 ^ r.length := by ring
      _ ≤ 10 * 10 ^ r.length := by
          exact Nat.mul_le_mul_right _ (by omega)
      _ = 10 ^ r.length * 10 := by ring

/-- The accumulator loop agrees with the positional value on digit
strings. -/
theorem natOfDigitRun_eq {l : List Char} (h : l.all isDigitChar = true) (acc : Nat) :
    natOfDigitRun l acc = acc * 10 ^ l.length + digitsToNat l := by
  induction l generalizing acc with
  | nil => simp [natOfDigitRun, digitsToNat]
  | cons c r ih =>
    simp only [List.all_cons, Bool.and_eq_true] at h
    simp only [natOfDigitRun, if_pos h.1, digitsToNat, List.length_cons, pow_succ]
    rw [ih h.2]
    ring

/-- Character order is code-point order. -/
theorem char_lt_iff_toNat {a b : Char} : a < b ↔ a.toNat < b.toNat := by
  constructor
  · intro h
    exact Nat.lt_of_lt_of_le (by exact h) (le_refl _)
  · intro h
    exact h


/-- Characters are equal iff their code points are. -/
theorem char_eq_iff_toNat {a b : Char} : a = b ↔ a.toNat = b.toNat := by
  constructor
  · intro h; rw [h]
  · intro h
    apply Char.ext
    exact UInt32.ext h

/-- On equal-length digit strings, lexicographic order is numeric
order. -/
theorem charListLt_digits {a b : List Char} (ha : a.all isDigitChar = true)
    (hb : b.all isDigitChar = true) (hlen : a.length = b.length) :
    (charListLt a b = true ↔ digitsToNat a < digitsToNat b) := by
  induction a generalizing b with
  | nil =>
    cases b with
    | nil => simp [charListLt, digitsToNat]
    | cons y ys => simp at hlen
  | cons x xs ih =>
    cases b with
    | nil => simp at hlen
    | cons y ys =>
      simp only [List.all_cons, Bool.and_eq_true] at ha hb
      simp only [List.length_cons, Nat.succ.injEq] at hlen
      have hx := isDigitChar_toNat ha.1
      have hy := isDigitChar_toNat hb.1
      have hxs := digitsToNat_lt ha.2
      have hys := digitsToNat_lt hb.2
      simp only [charListLt, Bool.or_eq_true, Bool.and_eq_true, beq_iff_eq,
        decide_eq_true_iff, digitsToNat, hlen]
      rw [char_lt_iff_toNat, char_eq_iff_toNat]
      have hdx : digitVal x = x.toNat - 48 := rfl
      have hdy : digitVal y = y.toNat - 48 := rfl
      rcases Nat.lt_trichotomy x.toNat y.toNat with hlt | heq | hgt
      · constructor
        · intro _
          have hdlt : digitVal x < digitVal y := by omega
          have h1 : (digitVal x + 1) * 10 ^ ys.length ≤ digitVal y * 10 ^ ys.length :=
            Nat.mul_le_mul_right _ (by omega)
          rw [hlen] at hxs
          nlinarith [hxs, hys, h1]
        · intro _
          exact Or.inl hlt
      · have hde : digitVal x = digitVal y := by omega
        constructor
        · rintro (h | ⟨-, h⟩)
          · omega
          · have hab := (ih ha.2 hb.2 hlen).mp h
            rw [hde]
            exact Nat.add_lt_add_left hab _
        · intro h
          refine Or.inr ⟨heq, (ih ha.2 hb.2 hlen).mpr ?_⟩
          rw [hde] at h
          exact Nat.lt_of_add_lt_add_left h
      · constructor
        · rintro (h | ⟨h, -⟩) <;> omega
        · intro h
          have hdgt : digitVal y < digitVal x := by omega
          have h1 : (digitVal y + 1) * 10 ^ ys.length ≤ digitVal x * 10 ^ ys.length :=
            Nat.mul_le_mul_right _ (by omega)
          rw [hlen] at hxs
          nlinarith [hxs, hys, h1]

/-- Splitting a lexicographic comparison of concatenations at an
equal-length boundary. -/
theorem charListLt_append (a c : List Char) {b : List Char} (d : List Char)
    (hlen : a.length = b.length) :
    charListLt (a ++ c) (b ++ d) =
      (charListLt a b || (a == b && charListLt c d)) := by
  induction a generalizing b with
  | nil =>
    cases b with
    | nil => simp [charListLt]
    | cons y ys => simp at hlen
  | cons x xs ih =>
    cases b with
    | nil => simp at hlen
    | cons y ys =>
      simp only [List.length_cons, Nat.succ.injEq] at hlen
      show (decide (x < y) || ((x == y) && charListLt (xs ++ c) (ys ++ d))) =
        ((decide (x < y) || ((x == y) && charListLt xs ys)) ||
          (((x == y) && (xs == ys)) && charListLt c d))
      rw [ih hlen]
      cases hxy : decide (x < y) <;> cases hxe : (x == y) <;>
        cases hls : charListLt xs ys <;> cases hle : (xs == ys) <;>
        cases hcd : charListLt c d <;> rfl


/-- Every month length in the table is at most 31. -/
theorem daysInMonthTable_getD_le (y m : Nat) (h1 : 1 ≤ m) (h2 : m ≤ 12) :
    (daysInMonthTable y).getD (m - 1) 0 ≤ 31 := by
  cases hb : isLeapYear y <;> simp only [daysInMonthTable, hb] <;>
    interval_cases m <;> simp

/-- Every month length in the table is at least 1. -/
theorem daysInMonthTable_getD_pos (y m : Nat) (h1 : 1 ≤ m) (h2 : m ≤ 12) :
    1 ≤ (daysInMonthTable y).getD (m - 1) 0 := by
  cases hb : isLeapYear y <;> simp only [daysInMonthTable, hb] <;>
    interval_cases m <;> simp

/-- One more month adds that month's table entry. -/
theorem daysBeforeMonth_succ (y m : Nat) (h : 1 ≤ m) :
    daysBeforeMonth y (m + 1) =
      daysBeforeMonth y m + (daysInMonthTable y).getD (m - 1) 0 := by
  obtain ⟨n, rfl⟩ : ∃ n, m = n + 1 := ⟨m - 1, by omega⟩
  simp only [daysBeforeMonth, Nat.add_sub_cancel, List.range_succ, List.map_append,
    List.sum_append, List.map_cons, List.map_nil, List.sum_cons, List.sum_nil]
  omega

/-- Cumulative days are monotone in the month. -/
theorem daysBeforeMonth_mono (y m1 m2 : Nat) (h1 : 1 ≤ m1) (h : m1 ≤ m2) :
    daysBeforeMonth y m1 ≤ daysBeforeMonth y m2 := by
  induction m2, h using Nat.le_induction with
  | base => exact le_refl _
  | succ n hn ih =>
    calc daysBeforeMonth y m1 ≤ daysBeforeMonth y n := ih
      _ ≤ daysBeforeMonth y (n + 1) := by
          rw [daysBeforeMonth_succ y n (by omega)]
          exact Nat.le_add_right _ _

/-- All twelve months sum to the year length. -/
theorem daysBeforeMonth_13 (y : Nat) :
    daysBeforeMonth y 13 = (if isLeapYear y then 366 else 365) := by
  cases hb : isLeapYear y <;> simp only [daysInMonthTable, daysBeforeMonth, hb] <;> decide

/-- A calendar-valid day-of-year index is below the year length. -/
theorem dayOfYear_lt (y m d : Nat) (h1 : 1 ≤ m) (h2 : m ≤ 12) (h3 : 1 ≤ d)
    (h4 : d ≤ (daysInMonthTable y).getD (m - 1) 0) :
    daysBeforeMonth y m + (d - 1) < (if isLeapYear y then 366 else 365) := by
  have hstep := daysBeforeMonth_succ y m h1
  have hmono := daysBeforeMonth_mono y (m + 1) 13 (by omega) (by omega)
  rw [daysBeforeMonth_13 y] at hmono
  omega

/-- The day-of-year index is strictly monotone in (month, day) for
calendar-valid dates. -/
theorem dayOfYear_mono (y : Nat) {m1 d1 m2 d2 : Nat}
    (hm1 : 1 ≤ m1) (hm2 : m2 ≤ 12) (hd1 : 1 ≤ d1)
    (hd4 : d1 ≤ (daysInMonthTable y).getD (m1 - 1) 0) (hd2 : 1 ≤ d2)
    (hlex : m1 < m2 ∨ (m1 = m2 ∧ d1 < d2)) :
    daysBeforeMonth y m1 + (d1 - 1) < daysBeforeMonth y m2 + (d2 - 1) := by
  rcases hlex with hm | ⟨rfl, hd⟩
  · have hstep := daysBeforeMonth_succ y m1 hm1
    have hmono := daysBeforeMonth_mono y (m1 + 1) m2 (by omega) (by omega)
    omega
  · omega

/-- One more year adds that year's seconds. -/
theorem yearSeconds_succ (y : Nat) (h : 2024 ≤ y) :
    yearSeconds (y + 1) =
      yearSeconds y + (if isLeapYear y then 366 else 365) * 86400 := by
  have hy : y + 1 - 2024 = (y - 2024) + 1 := by omega
  have hy2 : 2024 + (y - 2024) = y := by omega
  simp only [yearSeconds, hy, List.range_succ, List.map_append, List.sum_append,
    List.map_cons, List.map_nil, List.sum_cons, List.sum_nil, hy2, Nat.add_zero]

/-- Whole elapsed years dominate: a full year beyond `y1` fits below
`yearSeconds y2` whenever `y1 < y2`. -/
theorem yearSeconds_mono_step {y1 y2 : Nat} (h24 : 2024 ≤ y1) (h : y1 < y2) :
    yearSeconds y1 + (if isLeapYear y1 then 366 else 365) * 86400 ≤ yearSeconds y2 := by
  induction y2, h using Nat.le_induction with
  | base => rw [yearSeconds_succ y1 h24]
  | succ n hn ih =>
    calc yearSeconds y1 + (if isLeapYear y1 then 366 else 365) * 86400
        ≤ yearSeconds n := ih
      _ ≤ yearSeconds (n + 1) := by
          rw [yearSeconds_succ n (by omega)]
          exact Nat.le_add_right _ _


/-- Strict monotonicity of the seconds computation in the lexicographic
order of calendar-valid field tuples, for years at or after the 2024
anchor. -/
theorem dtSeconds_mono
    {y1 m1 d1 h1 mi1 s1 y2 m2 d2 h2 mi2 s2 : Nat}
    (hy1 : 2024 ≤ y1)
    (hm1a : 1 ≤ m1) (hm1b : m1 ≤ 12) (hd1a : 1 ≤ d1)
    (hd1b : d1 ≤ (daysInMonthTable y1).getD (m1 - 1) 0)
    (hh1 : h1 ≤ 23) (hmi1 : mi1 ≤ 59) (hs1 : s1 ≤ 59)
    (hm2b : m2 ≤ 12) (hd2a : 1 ≤ d2)
    (hlex : y1 < y2 ∨ (y1 = y2 ∧ (m1 < m2 ∨ (m1 = m2 ∧ (d1 < d2 ∨ (d1 = d2 ∧
      (h1 < h2 ∨ (h1 = h2 ∧ (mi1 < mi2 ∨ (mi1 = mi2 ∧ s1 < s2))))))))) ) :
    yearSeconds y1 + (daysBeforeMonth y1 m1 + (d1 - 1)) * 86400 +
      h1 * 3600 + mi1 * 60 + s1 <
    yearSeconds y2 + (daysBeforeMonth y2 m2 + (d2 - 1)) * 86400 +
      h2 * 3600 + mi2 * 60 + s2 := by
  rcases hlex with hy | ⟨rfl, hrest⟩
  · have hdoy := dayOfYear_lt y1 m1 d1 hm1a hm1b hd1a hd1b
    have hstep := yearSeconds_mono_step hy1 hy
    cases hb : isLeapYear y1 <;> simp only [hb] at hdoy hstep <;> simp at hdoy hstep <;> omega
  · rcases hrest with hm | ⟨rfl, hrest2⟩
    · have hdoy := dayOfYear_mono y1 hm1a hm2b hd1a hd1b hd2a (Or.inl hm)
      omega
    · rcases hrest2 with hd | ⟨rfl, hrest3⟩
      · have hdoy := dayOfYear_mono y1 hm1a hm2b hd1a hd1b hd2a (Or.inr ⟨rfl, hd⟩)
        omega
      · rcases hrest3 with hh | ⟨rfl, hrest4⟩
        · omega
        · rcases hrest4 with hmi | ⟨rfl, hs⟩ <;> omega


/-- Digits are not whitespace. -/
theorem isDigitChar_not_space {c : Char} (h : isDigitChar c = true) :
    isSpaceChar c = false := by
  have h48 := (isDigitChar_toNat h).1
  simp only [isSpaceChar, Bool.or_eq_false_iff, beq_eq_false_iff_ne, ne_eq]
  refine ⟨⟨⟨⟨⟨?_, ?_⟩, ?_⟩, ?_⟩, ?_⟩, ?_⟩ <;> rintro rfl <;> exact absurd h48 (by decide)

/-- On a nonempty all-digit string, `atol` returns the positional
value. -/
theorem atol_digits {l : List Char} (hne : l ≠ []) (h : l.all isDigitChar = true) :
    atol l = (digitsToNat l : Int) := by
  cases l with
  | nil => exact absurd rfl hne
  | cons c r =>
    simp only [List.all_cons, Bool.and_eq_true] at h
    have htn := isDigitChar_toNat h.1
    have hnsp : isSpaceChar c = false := isDigitChar_not_space h.1
    have hminus : ¬ (c = '-') := by rintro rfl; exact absurd htn (by decide)
    have hplus : ¬ (c = '+') := by rintro rfl; exact absurd htn (by decide)
    have hall : (c :: r).all isDigitChar = true := by simp [h.1, h.2]
    simp only [atol, List.dropWhile_cons, hnsp, Bool.false_eq_true, if_false,
      if_neg hminus, if_neg hplus, natOfDigitRun_eq hall 0]
    simp

/-- A 14-character string is the concatenation of its six datetime
fields. -/
theorem dt_decomp {s : List Char} (hlen : s.length = 14) :
    s = listSubstring s 0 4 ++ (listSubstring s 4 6 ++ (listSubstring s 6 8 ++
        (listSubstring s 8 10 ++ (listSubstring s 10 12 ++ listSubstring s 12 14)))) := by
  have e14 : listSubstring s 12 14 = s.drop 12 := by
    apply List.take_of_length_le
    simp [hlen]
  have e12 : listSubstring s 10 12 ++ s.drop 12 = s.drop 10 := by
    rw [show s.drop 12 = (s.drop 10).drop 2 by rw [List.drop_drop]]
    exact List.take_append_drop 2 (s.drop 10)
  have e10 : listSubstring s 8 10 ++ s.drop 10 = s.drop 8 := by
    rw [show s.drop 10 = (s.drop 8).drop 2 by rw [List.drop_drop]]
    exact List.take_append_drop 2 (s.drop 8)
  have e8 : listSubstring s 6 8 ++ s.drop 8 = s.drop 6 := by
    rw [show s.drop 8 = (s.drop 6).drop 2 by rw [List.drop_drop]]
    exact List.take_append_drop 2 (s.drop 6)
  have e6 : listSubstring s 4 6 ++ s.drop 6 = s.drop 4 := by
    rw [show s.drop 6 = (s.drop 4).drop 2 by rw [List.drop_drop]]
    exact List.take_append_drop 2 (s.drop 4)
  have e4 : listSubstring s 0 4 ++ s.drop 4 = s := by
    have : listSubstring s 0 4 = s.take 4 := by simp [listSubstring]
    rw [this]
    exact List.take_append_drop 4 s
  rw [e14, e12, e10, e8, e6, e4]

/-- Substrings of an all-digit string are all digits. -/
theorem listSubstring_all_digits {s : List Char} (hall : s.all isDigitChar = true)
    (a b : Nat) : (listSubstring s a b).all isDigitChar = true := by
  rw [List.all_eq_true] at hall ⊢
  intro c hc
  simp only [listSubstring] at hc
  exact hall c (List.mem_of_mem_drop (List.mem_of_mem_take hc))

/-- Length of a field substring of a 14-character string. -/
theorem listSubstring_length {s : List Char} (hlen : s.length = 14)
    {a b : Nat} (_hab : a ≤ b) (hb : b ≤ 14) :
    (listSubstring s a b).length = b - a := by
  simp [listSubstring, hlen]
  omega

/-- Field substrings of a 14-character string are nonempty. -/
theorem listSubstring_ne_nil {s : List Char} (hlen : s.length = 14)
    {a b : Nat} (hab : a < b) (hb : b ≤ 14) :
    listSubstring s a b ≠ [] := by
  intro hemp
  have := listSubstring_length hlen (le_of_lt hab) hb
  rw [hemp] at this
  simp at this
  omega


/-- On a well-formed datetime string the parser computes the anchored
calendar sum of its six fields. -/
theorem parseGPSDateTimeToUnixMillis_eq {s : List Char} (hv : ValidDT s) :
    parseGPSDateTimeToUnixMillis s =
      (1704067200 + (yearSeconds (dtYear s) +
        (daysBeforeMonth (dtYear s) (dtMonth s) + (dtDay s - 1)) * 86400 +
        dtHour s * 3600 + dtMinute s * 60 + dtSecond s)) * 1000 := by
  obtain ⟨hlen, hall, hy1, hy2, hm1, hm2, hd1, hd2, hh, hmi, hs⟩ := hv
  have hy : atol (listSubstring s 0 4) = (dtYear s : Int) :=
    atol_digits (listSubstring_ne_nil hlen (by norm_num) (by norm_num))
      (listSubstring_all_digits hall 0 4)
  have hm : atol (listSubstring s 4 6) = (dtMonth s : Int) :=
    atol_digits (listSubstring_ne_nil hlen (by norm_num) (by norm_num))
      (listSubstring_all_digits hall 4 6)
  have hd : atol (listSubstring s 6 8) = (dtDay s : Int) :=
    atol_digits (listSubstring_ne_nil hlen (by norm_num) (by norm_num))
      (listSubstring_all_digits hall 6 8)
  have hho : atol (listSubstring s 8 10) = (dtHour s : Int) :=
    atol_digits (listSubstring_ne_nil hlen (by norm_num) (by norm_num))
      (listSubstring_all_digits hall 8 10)
  have hmin : atol (listSubstring s 10 12) = (dtMinute s : Int) :=
    atol_digits (listSubstring_ne_nil hlen (by norm_num) (by norm_num))
      (listSubstring_all_digits hall 10 12)
  have hsec : atol (listSubstring s 12 14) = (dtSecond s : Int) :=
    atol_digits (listSubstring_ne_nil hlen (by norm_num) (by norm_num))
      (listSubstring_all_digits hall 12 14)
  have hd31 : dtDay s ≤ 31 :=
    le_trans hd2 (daysInMonthTable_getD_le (dtYear s) (dtMonth s) hm1 hm2)
  simp only [parseGPSDateTimeToUnixMillis, hy, hm, hd, hho, hmin, hsec]
  rw [if_neg (by omega), if_neg (by omega)]
  simp only [Int.toNat_natCast]


/-- C5 (amended): for well-formed 14-character datetime strings whose
years lie in [2024, 2100], lexicographic order of the strings implies
strict order of the derived millisecond timestamps.  (For years
2020-2023 the source's year loop `for (y = 2024; y < year; y++)` never
runs, collapsing those years onto 2024 and breaking monotonicity across
the 2023 to 2024 boundary.) -/
theorem parseGPSDateTime_lex_mono (s t : List Char) (hvs : ValidDT s) (hvt : ValidDT t)
    (hys : 2024 ≤ dtYear s) (_hyt : 2024 ≤ dtYear t)
    (hlex : charListLt s t = true) :
    parseGPSDateTimeToUnixMillis s < parseGPSDateTimeToUnixMillis t := by
  have hlens := hvs.1
  have hlent := hvt.1
  have halls := hvs.2.1
  have hallt := hvt.2.1
  have lenY : (listSubstring s 0 4).length = (listSubstring t 0 4).length := by
    rw [listSubstring_length hlens (by norm_num) (by norm_num),
        listSubstring_length hlent (by norm_num) (by norm_num)]
  have lenM : (listSubstring s 4 6).length = (listSubstring t 4 6).length := by
    rw [listSubstring_length hlens (by norm_num) (by norm_num),
        listSubstring_length hlent (by norm_num) (by norm_num)]
  have lenD : (listSubstring s 6 8).length = (listSubstring t 6 8).length := by
    rw [listSubstring_length hlens (by norm_num) (by norm_num),
        listSubstring_length hlent (by norm_num) (by norm_num)]
  have lenH : (listSubstring s 8 10).length = (listSubstring t 8 10).length := by
    rw [listSubstring_length hlens (by norm_num) (by norm_num),
        listSubstring_length hlent (by norm_num) (by norm_num)]
  have lenMi : (listSubstring s 10 12).length = (listSubstring t 10 12).length := by
    rw [listSubstring_length hlens (by norm_num) (by norm_num),
        listSubstring_length hlent (by norm_num) (by norm_num)]
  have lenSe : (listSubstring s 12 14).length = (listSubstring t 12 14).length := by
    rw [listSubstring_length hlens (by norm_num) (by norm_num),
        listSubstring_length hlent (by norm_num) (by norm_num)]
  have hlex2 : charListLt
      (listSubstring s 0 4 ++ (listSubstring s 4 6 ++ (listSubstring s 6 8 ++
        (listSubstring s 8 10 ++ (listSubstring s 10 12 ++ listSubstring s 12 14)))))
      (listSubstring t 0 4 ++ (listSubstring t 4 6 ++ (listSubstring t 6 8 ++
        (listSubstring t 8 10 ++ (listSubstring t 10 12 ++ listSubstring t 12 14))))) =
      true := by
    rw [← dt_decomp hlens, ← dt_decomp hlent]
    exact hlex
  rw [charListLt_append _ _ _ lenY, charListLt_append _ _ _ lenM,
      charListLt_append _ _ _ lenD, charListLt_append _ _ _ lenH,
      charListLt_append _ _ _ lenMi] at hlex2
  simp only [Bool.or_eq_true, Bool.and_eq_true, beq_iff_eq] at hlex2
  have digY := charListLt_digits (listSubstring_all_digits halls 0 4)
    (listSubstring_all_digits hallt 0 4) lenY
  have digM := charListLt_digits (listSubstring_all_digits halls 4 6)
    (listSubstring_all_digits hallt 4 6) lenM
  have digD := charListLt_digits (listSubstring_all_digits halls 6 8)
    (listSubstring_all_digits hallt 6 8) lenD
  have digH := charListLt_digits (listSubstring_all_digits halls 8 10)
    (listSubstring_all_digits hallt 8 10) lenH
  have digMi := charListLt_digits (listSubstring_all_digits halls 10 12)
    (listSubstring_all_digits hallt 10 12) lenMi
  have digSe := charListLt_digits (listSubstring_all_digits halls 12 14)
    (listSubstring_all_digits hallt 12 14) lenSe
  have hnum : dtYear s < dtYear t ∨ (dtYear s = dtYear t ∧
      (dtMonth s < dtMonth t ∨ (dtMonth s = dtMonth t ∧
      (dtDay s < dtDay t ∨ (dtDay s = dtDay t ∧
      (dtHour s < dtHour t ∨ (dtHour s = dtHour t ∧
      (dtMinute s < dtMinute t ∨ (dtMinute s = dtMinute t ∧
        dtSecond s < dtSecond t))))))))) := by
    rcases hlex2 with h | ⟨he, hlex3⟩
    · exact Or.inl (digY.mp h)
    refine Or.inr ⟨congrArg digitsToNat he, ?_⟩
    rcases hlex3 with h | ⟨he2, hlex4⟩
    · exact Or.inl (digM.mp h)
    refine Or.inr ⟨congrArg digitsToNat he2, ?_⟩
    rcases hlex4 with h | ⟨he3, hlex5⟩
    · exact Or.inl (digD.mp h)
    refine Or.inr ⟨congrArg digitsToNat he3, ?_⟩
    rcases hlex5 with h | ⟨he4, hlex6⟩
    · exact Or.inl (digH.mp h)
    refine Or.inr ⟨congrArg digitsToNat he4, ?_⟩
    rcases hlex6 with h | ⟨he5, hlex7⟩
    · exact Or.inl (digMi.mp h)
    exact Or.inr ⟨congrArg digitsToNat he5, digSe.mp hlex7⟩
  rw [parseGPSDateTimeToUnixMillis_eq hvs, parseGPSDateTimeToUnixMillis_eq hvt]
  obtain ⟨-, -, -, -, hm1s, hm2s, hd1s, hd2s, hhs, hmis, hss⟩ := hvs
  obtain ⟨-, -, -, -, hm1t, hm2t, hd1t, hd2t, hht, hmit, hst⟩ := hvt
  have hsec := dtSeconds_mono hys hm1s hm2s hd1s hd2s hhs hmis hss hm2t hd1t hnum
  omega


/-- C5 (counterexample): both strings are well-formed with years in
[2020, 2100] and valid calendar fields, `"20231231235959"` is
lexicographically smaller than `"20240101000000"`, yet its derived
timestamp is NOT smaller — the claim as stated fails on the code. -/
theorem parseGPSDateTime_lex_mono_cex :
    ValidDT "20231231235959".data ∧ ValidDT "20240101000000".data ∧
    charListLt "20231231235959".data "20240101000000".data = true ∧
    ¬ (parseGPSDateTimeToUnixMillis "20231231235959".data <
       parseGPSDateTimeToUnixMillis "20240101000000".data) := by
  refine ⟨by decide, by decide, by decide, by decide⟩

/-- Witness for C5 (amended) at the example pair of the claim. -/
theorem parseGPSDateTime_lex_mono_witness :
    parseGPSDateTimeToUnixMillis "20241225115959".data <
      parseGPSDateTimeToUnixMillis "20241225120000".data :=
  parseGPSDateTime_lex_mono _ _ (by decide) (by decide) (by decide) (by decide) (by decide)

end BikeTracker
